import Mathlib

/-!
A shallow embedding of the guycipher/btree repository (src/btree.go and the
Pager of src/unnamed/part_000), with theorems checking the claims of the
natural-language specification against it.

Modelling conventions:
- Go interface keys and values are modelled by the inductive GoVal.  The
  embedding restricts the universe of dynamic types to int, string and
  byte-slice keys plus an opaque constructor vother covering every other
  dynamic type (the comparison functions of the source treat all of those
  uniformly: no switch case matches, so they return false; vother carries the
  name of the dynamic type so that the source's type-name comparison aT == bT
  can be modelled).
- The tree file is modelled at page granularity: a list of slots, each holding
  a decoded node (or none for a region of the file that does not hold an
  encoded node, e.g. the zero-filled gap WriteAt produces beyond EOF).  The
  gob codec is external to the repository; its only observable uses are the
  encoded length of a node (encodeNode's size check and nodeKeyOverflowed).
  That length is therefore a parameter, the field encSize of the structure BT,
  mirroring the receiver b of the Go methods.
- Fallible and potentially non-terminating code is modelled with Except plus
  an explicit fuel parameter; running out of fuel yields the error fuelOut.
- Locks, fsync and the physical byte layout of a page are not modelled.
-/

namespace Btree

/-- Dynamic (interface) values: the key and value universe of the tree. -/
inductive GoVal where
  | vint (i : Int)
  | vstr (s : String)
  | vbytes (bs : List Nat)
  | vother (typeName : String)
deriving DecidableEq, Repr

/-- Lexicographic byte-slice order, as computed by bytes.Compare a b less than
zero: unsigned byte compare, a proper prefix sorts first. -/
def listNatLt : List Nat → List Nat → Bool
  | [], [] => false
  | [], _ :: _ => true
  | _ :: _, [] => false
  | a :: as, b :: bs => if a < b then true else if b < a then false else listNatLt as bs

/-- Go string order (byte-lexicographic; on UTF-8 data this agrees with the
codepoint order used by Lean's String order). -/
def strLt (a b : String) : Bool := a < b

/-- Whether two interface values have the same dynamic type, the check
fmt.Sprintf of percent-T performed at the top of every comparator
(btree.go:665-670 and the analogous lines of the other comparators). -/
def sameTypeB : GoVal → GoVal → Bool
  | .vint _, .vint _ => true
  | .vstr _, .vstr _ => true
  | .vbytes _, .vbytes _ => true
  | .vother s, .vother t => s == t
  | _, _ => false

/-- Model of lessThan (btree.go:661-732): false on a dynamic-type mismatch,
otherwise the per-type order; a type with no switch case yields false. -/
def lessThan (a b : GoVal) : Bool :=
  if !sameTypeB a b then false
  else match a, b with
    | .vint x, .vint y => x < y
    | .vstr x, .vstr y => strLt x y
    | .vbytes x, .vbytes y => listNatLt x y
    | _, _ => false

/-- Model of greaterThan (btree.go:735-805). -/
def greaterThan (a b : GoVal) : Bool :=
  if !sameTypeB a b then false
  else match a, b with
    | .vint x, .vint y => y < x
    | .vstr x, .vstr y => strLt y x
    | .vbytes x, .vbytes y => listNatLt y x
    | _, _ => false

/-- Model of equal (btree.go:808-880). -/
def equal (a b : GoVal) : Bool :=
  if !sameTypeB a b then false
  else match a, b with
    | .vint x, .vint y => x == y
    | .vstr x, .vstr y => x == y
    | .vbytes x, .vbytes y => x == y
    | _, _ => false

/-- Model of lessThanEq (btree.go:952-1018).  Faithful to the source: the
switch of lessThanEq has cases for the numeric types and string but, unlike
lessThan, NO case for a byte slice, so two byte slices always compare false. -/
def lessThanEq (a b : GoVal) : Bool :=
  if !sameTypeB a b then false
  else match a, b with
    | .vint x, .vint y => x ≤ y
    | .vstr x, .vstr y => strLt x y || x == y
    | _, _ => false

/-- Model of greaterThanEq (btree.go:883-949); like lessThanEq it has no byte
slice case. -/
def greaterThanEq (a b : GoVal) : Bool :=
  if !sameTypeB a b then false
  else match a, b with
    | .vint x, .vint y => y ≤ x
    | .vstr x, .vstr y => strLt y x || x == y
    | _, _ => false

/-- Key record (btree.go:40-45): a key, its ordered value list, and the
overflow link fields. -/
structure Key where
  K : GoVal
  V : List GoVal
  Overflowed : Bool := false
  OverflowPage : Int := 0
deriving DecidableEq, Repr

/-- Node record (btree.go:48-55). -/
structure Node where
  Page : Int
  Keys : List Key
  Children : List Int
  Leaf : Bool
  Overflow : Bool := false
  Reuse : Bool := false
deriving DecidableEq, Repr

/-- The BTree handle (btree.go:32-37): the minimum degree T, plus two
parameters of the external gob codec, which is outside the repository.
encSize is the encoded size of a node, consulted through encodeNode and
nodeKeyOverflowed.  encPrefix is a lower bound for the length of the stream
prefix shared by every two encoded nodes: a fresh gob encoder first emits the
type-definition section, which depends only on the static type of Node and is
therefore byte-identical across all pages (per-value differences, including
the concrete types behind the interface fields, appear only in the later value
section); that section is far longer than the small page numbers involved in
the splices of deletePage below. -/
structure BT where
  T : Nat
  encSize : Node → Nat
  encPrefix : Nat

/-- Page size constant (btree.go:29). -/
def PAGE_SIZE : Nat := 1024

/-- The persisted tree file at page granularity: slot i holds the node whose
encoded page is stored at byte offset i times PAGE_SIZE, or none when that
region of the file is not a gob-encoded node (e.g. a zero-filled gap). -/
abbrev St := List (Option Node)

/-- Errors of the model.  ioErr covers operating-system read and write errors,
eof a read past the end of the file, decodeFail a gob decode failure,
nodeTooLarge the encodeNode size check, indexPanic a Go slice index panic,
misalignedSplice marks a byte splice in deletePage that the page-level model
cannot represent (see deletePage below), fuelOut marks exhausted fuel. -/
inductive BErr where
  | ioErr
  | eof
  | decodeFail
  | nodeTooLarge
  | indexPanic
  | misalignedSplice
  | truncNegative
  | fuelOut
  | keyNotFound
  | valueNotFound
  | degreeTooSmall
deriving DecidableEq, Repr

/-- Model of getPage (btree.go:600-624): read PAGE_SIZE bytes at offset pageno
times PAGE_SIZE and gob-decode them.  A negative page is an I/O error, a page
at or past the end of the file reads past EOF, an undecodable slot is a decode
failure. -/
def getPage (st : St) (pageno : Int) : Except BErr Node :=
  if pageno < 0 then .error .ioErr
  else match st.get? pageno.toNat with
    | none => .error .eof
    | some none => .error .decodeFail
    | some (some n) => .ok n

/-- Model of newPageNumber (btree.go:628-634): file size divided by PAGE_SIZE. -/
def newPageNumber (st : St) : Int :=
  (st.length : Int)

/-- Model of writePage (btree.go:637-658) together with encodeNode
(btree.go:140-162): fail when the encoded node exceeds PAGE_SIZE, else write
the page at offset n.Page times PAGE_SIZE.  WriteAt beyond the end of the file
zero-fills the gap, which leaves undecodable slots (none). -/
def writePage (b : BT) (st : St) (n : Node) : Except BErr St :=
  if b.encSize n > PAGE_SIZE then .error .nodeTooLarge
  else if n.Page < 0 then .error .ioErr
  else
    let p := n.Page.toNat
    let l := st.length
    if p < l then .ok (st.set p (some n))
    else .ok (st ++ List.replicate (p - l) none ++ [some n])

/-- Model of pageCount (btree.go:1183-1186). -/
def pageCount (st : St) : Nat := st.length

/-- Model of newBTreeNode (btree.go:116-136): a fresh empty node at the next
page number, immediately written to the file. -/
def newBTreeNode (b : BT) (st : St) (leaf : Bool) : Except BErr (St × Node) := do
  let n : Node := { Page := newPageNumber st, Keys := [], Children := [],
                    Leaf := leaf, Overflow := false, Reuse := false }
  let st' ← writePage b st n
  .ok (st', n)

/-- Model of getRoot (btree.go:180-205): read page 0; only on an EOF error
synthesize the empty leaf root and write it to page 0. -/
def getRoot (b : BT) (st : St) : Except BErr (Node × St) :=
  match getPage st 0 with
  | .ok root => .ok (root, st)
  | .error .eof => do
      let root : Node := { Page := 0, Keys := [], Children := [], Leaf := true,
                           Overflow := false, Reuse := false }
      let st' ← writePage b st root
      .ok (root, st')
  | .error e => .error e

/-- Index computed by the forward scan loop shared by searchKey
(btree.go:443-445), deleteKey (btree.go:1225-1228), findNodeForKey
(btree.go:1537-1540) and rangeKeys (btree.go:1618-1621): the number of leading
keys whose key compares lessThan the probe. -/
def searchIdx : List Key → GoVal → Nat
  | [], _ => 0
  | kr :: rest, k => if lessThan kr.K k then searchIdx rest k + 1 else 0

/-- Backward scan helper for insertNonFull: starting from index n - 1, step
down while the probe compares lessThan the key at the index. -/
def leafPosAux (keys : List Key) (key : GoVal) : Nat → Option Nat
  | 0 => none
  | n + 1 =>
    match keys.get? n with
    | some kr => if lessThan key kr.K then leafPosAux keys key n else some n
    | none => none

/-- The final value of i in the backward scan of insertNonFull
(btree.go:347-352 and 390-392): none models i = -1. -/
def leafPos (keys : List Key) (key : GoVal) : Option Nat :=
  leafPosAux keys key keys.length

/-- Model of nodeKeyOverflowed (btree.go:1131-1147): the encoded size of the
node exceeds half a page. -/
def nodeKeyOverflowed (b : BT) (n : Node) : Bool :=
  b.encSize n > PAGE_SIZE / 2

/-- Model of splitChild (btree.go:255-305).  Returns the new file together
with the mutated x and y, which the Go code updates through pointers.  The Go
append-then-shift idiom on x.Keys and x.Children amounts to an insertion at
index i (respectively i + 1) and panics when the index exceeds the length. -/
def splitChild (b : BT) (st : St) (x : Node) (i : Nat) (y : Node) :
    Except BErr (St × Node × Node) := do
  let (st1, z0) ← newBTreeNode b st y.Leaf
  let z1 : Node := { z0 with Keys := z0.Keys ++ y.Keys.drop b.T }
  let y1 : Node := { y with Keys := y.Keys.take b.T }
  let (z2, y2) :=
    if !y.Leaf then
      ({ z1 with Children := z1.Children ++ y.Children.drop b.T },
       { y1 with Children := y1.Children.take b.T })
    else (z1, y1)
  match y2.Keys.get? (b.T - 1) with
  | none => .error .indexPanic
  | some promoted =>
    if i ≤ x.Keys.length && i + 1 ≤ x.Children.length then
      let x1 : Node := { x with Keys := x.Keys.insertIdx i promoted,
                                Children := x.Children.insertIdx (i + 1) z2.Page }
      let y3 : Node := { y2 with Keys := y2.Keys.take (b.T - 1) }
      let st2 ← writePage b st1 y3
      let st3 ← writePage b st2 z2
      let st4 ← writePage b st3 x1
      .ok (st4, x1, y3)
    else .error .indexPanic

/-- Model of splitRoot (btree.go:208-252). -/
def splitRoot (b : BT) (st : St) : Except BErr St := do
  let (oldRoot, st0) ← getRoot b st
  let (st1, newOldRoot0) ← newBTreeNode b st0 oldRoot.Leaf
  let newOldRoot : Node :=
    { newOldRoot0 with Keys := oldRoot.Keys, Children := oldRoot.Children }
  let newRoot : Node := { Page := 0, Keys := [], Children := [newOldRoot.Page],
                          Leaf := false, Overflow := false, Reuse := false }
  let (st2, x1, y1) ← splitChild b st1 newRoot 0 newOldRoot
  let st3 ← writePage b st2 x1
  let st4 ← writePage b st3 y1
  .ok st4

/-- Helper scanning the pages 0, 1, ... for a node marked for reuse, the loop
body of getAvailableOverflowNode. -/
def gaonScan (b : BT) (st : St) : List Nat → Except BErr (St × Option Node)
  | [] => .ok (st, none)
  | i :: rest => do
      let node ← getPage st (i : Int)
      if node.Reuse then do
        let st' ← writePage b st node
        .ok (st', some { node with Reuse := false })
      else gaonScan b st rest

/-- Model of getAvailableOverflowNode (btree.go:1150-1180).  Faithful detail:
the node is written back to the file BEFORE its Reuse flag is cleared, so the
on-disk copy keeps Reuse = true (and all its stale keys); only the returned
in-memory copy has Reuse = false. -/
def getAvailableOverflowNode (b : BT) (st : St) : Except BErr (St × Option Node) :=
  gaonScan b st (List.range (pageCount st))

/-- Walk to the tail of an overflow chain, the loop at btree.go:500-505: note
the loop condition indexes Keys[0] and so panics on a node with no keys. -/
def walkOverflowChain (st : St) (n : Node) (fuel : Nat) : Except BErr Node :=
  match fuel with
  | 0 => .error .fuelOut
  | fuel + 1 =>
    match n.Keys.head? with
    | none => .error .indexPanic
    | some k0 =>
      if k0.Overflowed then do
        let n' ← getPage st k0.OverflowPage
        walkOverflowChain st n' fuel
      else .ok n

/-- Model of handleKeyOverflow (btree.go:493-578).  The node x is passed with
the just-appended value already popped again (the caller does that at
btree.go:362).  In the already-overflowed branch x is never written back; in
the fresh-overflow branch x is written with its new overflow link. -/
def handleKeyOverflow (b : BT) (st : St) (x : Node) (i : Nat)
    (key value : GoVal) (fuel : Nat) : Except BErr St := do
  match x.Keys.get? i with
  | none => .error .indexPanic
  | some kri =>
    if kri.Overflowed then do
      let first ← getPage st kri.OverflowPage
      let tail ← walkOverflowChain st first fuel
      match tail.Keys.head? with
      | none => .error .indexPanic
      | some t0 =>
        let t1 : Key := { t0 with V := t0.V ++ [value] }
        let tail1 : Node := { tail with Keys := tail.Keys.set 0 t1 }
        if nodeKeyOverflowed b tail1 then do
          let t2 : Key := { t1 with V := t1.V.dropLast }
          let (st1, newOP0) ← newBTreeNode b st true
          let (t3, newOP) :=
            if t2.V.length == 0 then
              ({ t2 with V := t2.V ++ [value] }, newOP0)
            else
              (t2, { newOP0 with Keys := newOP0.Keys ++
                      [{ K := key, V := [value], Overflowed := false, OverflowPage := 0 }] })
          let t4 : Key := { t3 with Overflowed := true, OverflowPage := newOP.Page }
          let tail2 : Node := { tail with Keys := tail.Keys.set 0 t4 }
          let st2 ← writePage b st1 newOP
          let st3 ← writePage b st2 tail2
          .ok st3
        else do
          let st1 ← writePage b st tail1
          .ok st1
    else do
      let (st1, avail) ← getAvailableOverflowNode b st
      let (st2, existing0) ←
        match avail with
        | some n => pure (st1, n)
        | none => do
            let (st2, n) ← newBTreeNode b st1 true
            pure (st2, n)
      let existing : Node :=
        if existing0.Keys.length == 0 then
          { existing0 with Keys :=
              [{ K := key, V := [value], Overflowed := false, OverflowPage := 0 }] }
        else
          match existing0.Keys with
          | k0 :: rest => { existing0 with Keys := ({ k0 with V := k0.V ++ [value] }) :: rest }
          | [] => existing0
      let kri1 : Key := { kri with Overflowed := true, OverflowPage := existing.Page }
      let x1 : Node := { x with Keys := x.Keys.set i kri1 }
      let st3 ← writePage b st2 existing
      let st4 ← writePage b st3 x1
      .ok st4

/-- Model of insertNonFull (btree.go:346-423). -/
def insertNonFull (b : BT) (st : St) (x : Node) (key value : GoVal) (fuel : Nat) :
    Except BErr St :=
  match fuel with
  | 0 => .error .fuelOut
  | fuel + 1 =>
    if x.Leaf then
      match leafPos x.Keys key with
      | some i =>
        match x.Keys.get? i with
        | none => .error .indexPanic
        | some kr =>
          if equal key kr.K then
            let kr1 : Key := { kr with V := kr.V ++ [value] }
            let x1 : Node := { x with Keys := x.Keys.set i kr1 }
            if nodeKeyOverflowed b x1 then
              let kr2 : Key := { kr1 with V := kr1.V.dropLast }
              let x2 : Node := { x1 with Keys := x1.Keys.set i kr2 }
              handleKeyOverflow b st x2 i key value fuel
            else do
              let st' ← writePage b st x1
              .ok st'
          else do
            -- append-a-nil-then-shift insertion of a fresh key record at i + 1
            let fresh : Key := { K := key, V := [value], Overflowed := false, OverflowPage := 0 }
            let st' ← writePage b st { x with Keys := x.Keys.insertIdx (i + 1) fresh }
            .ok st'
      | none => do
          let fresh : Key := { K := key, V := [value], Overflowed := false, OverflowPage := 0 }
          let st' ← writePage b st { x with Keys := x.Keys.insertIdx 0 fresh }
          .ok st'
    else
      let i := match leafPos x.Keys key with
               | some i => i + 1
               | none => 0
      match x.Children.get? i with
      | none => .error .indexPanic
      | some cpage => do
        let child ← getPage st cpage
        let (st1, x1, i1) ←
          if child.Keys.length == 2 * b.T - 1 then do
            let (st1, x1, _) ← splitChild b st x i child
            match x1.Keys.get? i with
            | none => .error .indexPanic
            | some kr => .ok (st1, x1, if greaterThan key kr.K then i + 1 else i)
          else .ok (st, x, i)
        match x1.Children.get? i1 with
        | none => .error .indexPanic
        | some cpage' => do
          let child' ← getPage st1 cpage'
          insertNonFull b st1 child' key value fuel

/-- Model of Put (btree.go:310-343). -/
def Put (b : BT) (st : St) (key value : GoVal) (fuel : Nat) : Except BErr St := do
  let (root, st0) ← getRoot b st
  if root.Keys.length == 2 * b.T - 1 then do
    let st1 ← splitRoot b st0
    let root' ← getPage st1 0
    insertNonFull b st1 root' key value fuel
  else
    insertNonFull b st0 root key value fuel

/-- Collect the value lists along an overflow chain, the loop of searchKey at
btree.go:452-470 (also searchKeyOverflow): the values of the first overflow
page are appended, then the walk continues while Keys[0] is overflowed. -/
def collectChain (st : St) (page : Int) (acc : List GoVal) (fuel : Nat) :
    Except BErr (List GoVal) :=
  match fuel with
  | 0 => .error .fuelOut
  | fuel + 1 => do
    let op ← getPage st page
    match op.Keys.head? with
    | none => .error .indexPanic
    | some k0 =>
      if k0.Overflowed then collectChain st k0.OverflowPage (acc ++ k0.V) fuel
      else .ok (acc ++ k0.V)

/-- Model of searchKey (btree.go:436-490).  The nil-node branch re-reading the
root is dead code for every call site and is not modelled.  A found key yields
its inline values followed by the overflow chain values in chain order; a miss
at a leaf yields the empty list (Go returns nil values and nil error). -/
def searchKey (st : St) (k : GoVal) (x : Node) (fuel : Nat) :
    Except BErr (List GoVal) :=
  match fuel with
  | 0 => .error .fuelOut
  | fuel + 1 =>
    let i := searchIdx x.Keys k
    match x.Keys.get? i with
    | some kr =>
      if equal k kr.K then
        if kr.Overflowed then collectChain st kr.OverflowPage kr.V fuel
        else .ok kr.V
      else if x.Leaf then .ok []
      else
        match x.Children.get? i with
        | none => .error .indexPanic
        | some cpage => do
          let child ← getPage st cpage
          searchKey st k child fuel
    | none =>
      if x.Leaf then .ok []
      else
        match x.Children.get? i with
        | none => .error .indexPanic
        | some cpage => do
          let child ← getPage st cpage
          searchKey st k child fuel

/-- Model of Get (btree.go:426-433): load the root (creating it on a fresh
file) and search.  Only the resulting value list is returned; a Get is always
terminal in the theorems below, so the (possibly root-initialized) file is not
threaded further. -/
def Get (b : BT) (st : St) (k : GoVal) (fuel : Nat) : Except BErr (List GoVal) := do
  let (root, st0) ← getRoot b st
  searchKey st0 k root fuel

/-- Model of findNodeForKey (btree.go:1536-1554): the search traversal that
reports key not found. -/
def findNodeForKey (st : St) (x : Node) (key : GoVal) (fuel : Nat) :
    Except BErr (Node × Nat) :=
  match fuel with
  | 0 => .error .fuelOut
  | fuel + 1 =>
    let i := searchIdx x.Keys key
    if (match x.Keys.get? i with
        | some kr => equal key kr.K
        | none => false) then
      .ok (x, i)
    else if !x.Leaf then
      match x.Children.get? i with
      | none => .error .indexPanic
      | some cpage => do
        let child ← getPage st cpage
        findNodeForKey st child key fuel
    else .error .keyNotFound

/-- Model of getAllOverflowPages (btree.go:1420-1444).  The recursion step
indexes Keys[0] of the fetched overflow page inside the loop condition, which
panics on a node with no keys. -/
def getAllOverflowPages (st : St) (key : Key) (fuel : Nat) : Except BErr (List Int) :=
  match fuel with
  | 0 => .error .fuelOut
  | fuel + 1 =>
    if key.Overflowed then do
      let op ← getPage st key.OverflowPage
      match op.Keys.head? with
      | none => .error .indexPanic
      | some k0 =>
        if k0.Overflowed then do
          let more ← getAllOverflowPages st k0 fuel
          .ok (key.OverflowPage :: more)
        else .ok [key.OverflowPage]
    else .ok []

/-- The loop of deleteKey at btree.go:1237-1249: mark every overflow page of
the deleted key with Reuse = true and write it back. -/
def markReuse (b : BT) (st : St) : List Int → Except BErr St
  | [] => .ok st
  | p :: rest => do
      let op ← getPage st p
      let st' ← writePage b st { op with Reuse := true }
      markReuse b st' rest

/-- Model of getPredecessor (btree.go:1447-1459): the maximum key of the
subtree. -/
def getPredecessor (st : St) (x : Node) (fuel : Nat) : Except BErr Key :=
  match fuel with
  | 0 => .error .fuelOut
  | fuel + 1 =>
    if x.Leaf then
      match x.Keys.getLast? with
      | none => .error .indexPanic
      | some kr => .ok kr
    else
      match x.Children.getLast? with
      | none => .error .indexPanic
      | some cp => do
        let child ← getPage st cp
        getPredecessor st child fuel

/-- Model of getSuccessor (btree.go:1462-1474): the minimum key of the
subtree. -/
def getSuccessor (st : St) (x : Node) (fuel : Nat) : Except BErr Key :=
  match fuel with
  | 0 => .error .fuelOut
  | fuel + 1 =>
    if x.Leaf then
      match x.Keys.head? with
      | none => .error .indexPanic
      | some kr => .ok kr
    else
      match x.Children.head? with
      | none => .error .indexPanic
      | some cp => do
        let child ← getPage st cp
        getSuccessor st child fuel

/-- The slot-level effect of deletePage's copy-and-truncate: the file shrinks
by plen slots; destination slots from opage up to newCount - plen receive the
slot plen further on, and every other slot keeps its old content.  The tail
slots keep their old content because the source index of the copy loop
(btree.go:1334) is bounded by newSize, the TRUNCATED size, rather than by the
old file size, so the final length bytes of the remaining file are never
rewritten and the last plen old pages are never read. -/
def spliceSlots (st : St) (opage plen : Nat) : St :=
  let newCount := st.length - plen
  (List.range newCount).map (fun k =>
    if opage ≤ k && k < newCount - plen then st.getD (k + plen) none else st.getD k none)

/-- Model of deletePage (btree.go:1322-1368): splice length bytes out of the
file at the byte position offset by shifting content left in chunks and
truncating.  The source receives offset in BYTES (it computes the lock key as
offset / PAGE_SIZE and shifts file content at byte granularity).

Two cases are representable at page granularity:
- offset and length both multiples of PAGE_SIZE: spliceSlots at the
  corresponding slot indices.
- length = PAGE_SIZE and 0 < offset within the shared encoded prefix of all
  pages (offset at most b.encPrefix, inside gob's type-definition section).
  The copy gives new[i] = old[i] for i below offset and
  new[i] = old[i + PAGE_SIZE] for offset up to newSize - PAGE_SIZE, with the
  final page untouched; since the bytes below offset of pages 0 and 1 coincide
  (both inside the identical type section), the result is byte-for-byte
  spliceSlots st 0 1: page 0 is discarded, the following pages shift down one
  slot, and the final page keeps its old content.  This is the case the merge
  branch of deleteKey actually produces, since it passes the small page NUMBER
  z.Page as the byte offset: instead of freeing z's page the splice discards
  page 0 and shifts the file while every stored page id still refers to the
  old positions.
- Any other misaligned splice shears pages across slot boundaries in a way a
  page-level model cannot represent and is reported as misalignedSplice (no
  such splice arises in the scenarios below). -/
def deletePage (b : BT) (st : St) (offset length : Int) : Except BErr St :=
  if offset < 0 || length < 0 then .error .ioErr
  else
    let size : Int := (PAGE_SIZE : Int) * st.length
    if size - length < 0 then .error .truncNegative
    else if offset % (PAGE_SIZE : Int) == 0 && length % (PAGE_SIZE : Int) == 0 then
      .ok (spliceSlots st (offset / (PAGE_SIZE : Int)).toNat (length / (PAGE_SIZE : Int)).toNat)
    else if 0 < offset && offset ≤ (b.encPrefix : Int) && offset < (PAGE_SIZE : Int)
        && length == (PAGE_SIZE : Int) then
      .ok (spliceSlots st 0 1)
    else .error .misalignedSplice

mutual

/-- Model of updatePageNumbers (btree.go:1371-1394): decrement the page number
of every node found after the deleted page and write the node back (at its new
offset), recursing through the children.  Fuel is consumed at every step. -/
def updatePageNumbers (b : BT) (st : St) (x : Node) (deletedPage : Int) (fuel : Nat) :
    Except BErr St :=
  match fuel with
  | 0 => .error .fuelOut
  | fuel + 1 => do
    let st1 ←
      if x.Page > deletedPage then writePage b st { x with Page := x.Page - 1 }
      else pure st
    updChildren b st1 x.Children deletedPage fuel

/-- The children loop of updatePageNumbers. -/
def updChildren (b : BT) (st : St) (children : List Int) (deletedPage : Int)
    (fuel : Nat) : Except BErr St :=
  match fuel with
  | 0 => .error .fuelOut
  | fuel + 1 =>
    match children with
    | [] => .ok st
    | cp :: rest => do
      let child ← getPage st cp
      let st' ← updatePageNumbers b st child deletedPage fuel
      updChildren b st' rest deletedPage fuel

end

/-- Model of deletePageAndUpdate (btree.go:1397-1417). -/
def deletePageAndUpdate (b : BT) (st : St) (offset length : Int) (fuel : Nat) :
    Except BErr St := do
  let st1 ← deletePage b st offset length
  let (root, st2) ← getRoot b st1
  updatePageNumbers b st2 root offset fuel

/-- Model of deleteKey (btree.go:1224-1319).  Returned are the resulting file
and the in-memory node x as mutated by the call (the Go function returns x).

Faithful detail of the predecessor and successor branches: the recursive call
passes the predecessor (successor) KEY RECORD POINTER itself as the interface
key k.  Its dynamic type, a Key pointer, matches no case of the comparison
functions, so every lessThan and equal test inside the recursion is false and
the recursion walks to the leftmost leaf without finding or deleting anything.
The model renders that argument as the opaque value vother applied to the
dynamic type name of a Key pointer, which compares false against everything
exactly as in the source; the pointee is never inspected by the recursion. -/
def deleteKey (b : BT) (st : St) (k : GoVal) (x : Node) (fuel : Nat) :
    Except BErr (St × Node) :=
  match fuel with
  | 0 => .error .fuelOut
  | fuel + 1 =>
    let i := searchIdx x.Keys k
    if (match x.Keys.get? i with
        | some kr => equal k kr.K
        | none => false) then
      match x.Keys.get? i with
      | none => .error .indexPanic
      | some kr => do
        let overflows ← getAllOverflowPages st kr fuel
        let st ← markReuse b st overflows
        if x.Leaf then do
          let x1 : Node := { x with Keys := x.Keys.eraseIdx i }
          let st1 ← writePage b st x1
          .ok (st1, x1)
        else
          match x.Children.get? i, x.Children.get? (i + 1) with
          | some cy, some cz => do
            let y ← getPage st cy
            let z ← getPage st cz
            if y.Keys.length ≥ b.T then do
              let predKey ← getPredecessor st y fuel
              let x1 : Node := { x with Keys := x.Keys.set i predKey }
              let (st1, _) ← deleteKey b st (.vother "*btree.Key") y fuel
              let st2 ← writePage b st1 x1
              .ok (st2, x1)
            else if z.Keys.length ≥ b.T then do
              let succKey ← getSuccessor st z fuel
              let x1 : Node := { x with Keys := x.Keys.set i succKey }
              let (st1, _) ← deleteKey b st (.vother "*btree.Key") z fuel
              let st2 ← writePage b st1 x1
              .ok (st2, x1)
            else do
              let y1 : Node := { y with Keys := y.Keys ++ [kr] ++ z.Keys,
                                        Children := y.Children ++ z.Children }
              let x1 : Node := { x with Keys := x.Keys.eraseIdx i,
                                        Children := x.Children.take (i + 1) ++
                                                    x.Children.drop (i + 2) }
              let st1 ← deletePageAndUpdate b st z.Page (PAGE_SIZE : Int) fuel
              let (st2, _) ← deleteKey b st1 k y1 fuel
              let st3 ← writePage b st2 x1
              .ok (st3, x1)
          | _, _ => .error .indexPanic
    else if !x.Leaf then
      match x.Children.get? i with
      | none => .error .indexPanic
      | some cp => do
        let child ← getPage st cp
        let (st1, _) ← deleteKey b st k child fuel
        .ok (st1, x)
    else .ok (st, x)

/-- Model of Delete (btree.go:1189-1221).  The tree lock and the teardown and
rebuild of the page-lock map have no effect on the file and are not
modelled. -/
def Delete (b : BT) (st : St) (k : GoVal) (fuel : Nat) : Except BErr St := do
  let (root, st0) ← getRoot b st
  let (st1, _) ← deleteKey b st0 k root fuel
  .ok st1

mutual

/-- Model of deleteValueFromNode (btree.go:1653-1711).  An ok result models
the Go function returning nil; the error valueNotFound models its key-not
found error.  Faithful details: a deletion from an inline value list mutates
only the in-memory copy of the node and is NOT written back (the overflow
branch does write); after the key loop, the children loop returns the error
of the first child whose recursive call fails, even when an earlier child
succeeded; when every key and child has been scanned the function returns the
valueNotFound error. -/
def deleteValueFromNode (b : BT) (st : St) (x : Node) (key value : GoVal)
    (fuel : Nat) : Except BErr St :=
  match fuel with
  | 0 => .error .fuelOut
  | fuel + 1 => do
    let r ← dvfnKeys b st x.Keys key value fuel
    match r with
    | some st' => .ok st'
    | none =>
      if !x.Leaf then dvfnChildren b st x.Children key value fuel
      else .error .valueNotFound

/-- The key loop of deleteValueFromNode: some st means the Go loop returned
nil with the given file; none means the loop ran to completion. -/
def dvfnKeys (b : BT) (st : St) (keys : List Key) (key value : GoVal)
    (fuel : Nat) : Except BErr (Option St) :=
  match fuel with
  | 0 => .error .fuelOut
  | fuel + 1 =>
    match keys with
    | [] => .ok none
    | kr :: rest =>
      if equal kr.K key then
        if kr.Overflowed then do
          let first ← getPage st kr.OverflowPage
          let r ← dvfnChain b st first value fuel
          match r with
          | some st' => .ok (some st')
          | none => dvfnKeys b st rest key value fuel
        else
          match kr.V.findIdx? (fun v => equal v value) with
          | some _ => .ok (some st)
          | none => dvfnKeys b st rest key value fuel
      else dvfnKeys b st rest key value fuel

/-- The overflow-chain loop of deleteValueFromNode (btree.go:1657-1682): scan
the values of Keys[0] of each chain node for the first equal value, delete it
there and write that node back; some st means found and persisted, none means
the chain ended without a match. -/
def dvfnChain (b : BT) (st : St) (node : Node) (value : GoVal) (fuel : Nat) :
    Except BErr (Option St) :=
  match fuel with
  | 0 => .error .fuelOut
  | fuel + 1 =>
    match node.Keys.head? with
    | none => .error .indexPanic
    | some k0 =>
      match k0.V.findIdx? (fun v => equal v value) with
      | some j => do
        let k1 : Key := { k0 with V := k0.V.eraseIdx j }
        let node1 : Node := { node with Keys := node.Keys.set 0 k1 }
        let st' ← writePage b st node1
        .ok (some st')
      | none =>
        if k0.Overflowed then do
          let next ← getPage st k0.OverflowPage
          dvfnChain b st next value fuel
        else .ok none

/-- The children loop of deleteValueFromNode (btree.go:1696-1708): recurse
into every child in order, propagating the first error; falling out of the
loop yields the valueNotFound error of the final line. -/
def dvfnChildren (b : BT) (st : St) (children : List Int) (key value : GoVal)
    (fuel : Nat) : Except BErr St :=
  match fuel with
  | 0 => .error .fuelOut
  | fuel + 1 =>
    match children with
    | [] => .error .valueNotFound
    | cp :: rest => do
      let child ← getPage st cp
      let st' ← deleteValueFromNode b st child key value fuel
      dvfnChildren b st' rest key value fuel

end

/-- Model of Remove (btree.go:1714-1733). -/
def Remove (b : BT) (st : St) (key value : GoVal) (fuel : Nat) : Except BErr St := do
  let (root, st0) ← getRoot b st
  deleteValueFromNode b st0 root key value fuel

mutual

/-- Model of rangeKeys (btree.go:1611-1650): skip the keys below start, then
run the collection loop. -/
def rangeKeys (b : BT) (st : St) (start end_ : GoVal) (x : Node) (fuel : Nat) :
    Except BErr (List Key) :=
  match fuel with
  | 0 => .error .fuelOut
  | fuel + 1 => rangeLoop b st start end_ x (searchIdx x.Keys start) fuel

/-- The collection loop of rangeKeys (btree.go:1622-1636): while the key at i
compares lessThanEq the end bound, collect the subtree below it, then the key,
then continue with i + 1; when the loop stops, collect the subtree at the
final i. -/
def rangeLoop (b : BT) (st : St) (start end_ : GoVal) (x : Node) (i : Nat)
    (fuel : Nat) : Except BErr (List Key) :=
  match fuel with
  | 0 => .error .fuelOut
  | fuel + 1 =>
    match x.Keys.get? i with
    | some kr =>
      if lessThanEq kr.K end_ then do
        let childKeys ←
          if !x.Leaf then
            match x.Children.get? i with
            | none => .error .indexPanic
            | some cp => do
              let child ← getPage st cp
              rangeKeys b st start end_ child fuel
          else pure []
        let rest ← rangeLoop b st start end_ x (i + 1) fuel
        .ok (childKeys ++ [kr] ++ rest)
      else rangeAfterLoop b st start end_ x i fuel
    | none => rangeAfterLoop b st start end_ x i fuel

/-- The trailing subtree visit of rangeKeys (btree.go:1637-1647). -/
def rangeAfterLoop (b : BT) (st : St) (start end_ : GoVal) (x : Node) (i : Nat)
    (fuel : Nat) : Except BErr (List Key) :=
  match fuel with
  | 0 => .error .fuelOut
  | fuel + 1 =>
    if !x.Leaf then
      match x.Children.get? i with
      | none => .ok []
      | some cp => do
        let child ← getPage st cp
        rangeKeys b st start end_ child fuel
    else .ok []

end

/-- Model of Range (btree.go:1601-1608): the keys of the tree whose key lies
in the interval from start to end under the source's comparators. -/
def Range (b : BT) (st : St) (start end_ : GoVal) (fuel : Nat) :
    Except BErr (List Key) := do
  let (root, st0) ← getRoot b st
  rangeKeys b st0 start end_ root fuel

/-- Model of Open (btree.go:65-94): reject a degree below 2, open (creating if
missing) the tree file, and build the page-lock map.  Open performs no read or
write of page 0; the file is returned as it is. -/
def Open (t : Int) (st : St) : Except BErr St :=
  if t < 2 then .error .degreeTooSmall else .ok st

/-- A public mutating operation, for describing reachable states. -/
inductive Op where
  | put (k v : GoVal)
  | del (k : GoVal)
  | rem (k v : GoVal)

/-- Run a list of public operations from a file state, giving each call the
same fuel. -/
def runOps (b : BT) (st : St) (fuel : Nat) : List Op → Except BErr St
  | [] => .ok st
  | op :: rest => do
      let st' ←
        match op with
        | .put k v => Put b st k v fuel
        | .del k => Delete b st k fuel
        | .rem k v => Remove b st k v fuel
      runOps b st' fuel rest

namespace Pager

/-- Pager errors: an operating-system I/O failure, or a Go slice-bounds panic
in the deleted-pages removal loop of WriteTo. -/
inductive PErr where
  | ioErr
  | sliceBounds
deriving DecidableEq, Repr

/-- Physical slot of the pager file (part_000): HEADER_SIZE bytes holding the
ASCII-decimal id of the next slot (written by FormatInt into a zero buffer and
parsed back by ParseInt after trimming the zero padding; none models a header
that does not parse, e.g. the all-zero header of a gap created by WriteAt past
EOF), followed by PAGE_SIZE payload bytes. -/
structure Slot where
  next : Option Int
  payload : List Nat
deriving DecidableEq, Repr

/-- Pager state: the data file as a list of physical slots, plus the deleted
pages list (kept in memory and rewritten to the sidecar .del file on every
change; the model does not distinguish the two copies). -/
structure PSt where
  slots : List Slot
  deletedPages : List Int
deriving DecidableEq, Repr

/-- Page size constant (part_000:46). -/
def PAGE_SIZE : Nat := 1024

/-- Header size constant (part_000:47). -/
def HEADER_SIZE : Nat := 256

/-- A slot of a zero-filled file region: an unparseable header and a zero
payload. -/
def zeroSlot : Slot := { next := none, payload := List.replicate PAGE_SIZE 0 }

/-- Chunking loop with an explicit structural bound: the counter starts at the
data length and strictly exceeds the number of loop steps, since every step
consumes at least one byte. -/
def splitChunksGo : Nat → List Nat → List (List Nat)
  | 0, _ => []
  | _, [] => []
  | n + 1, a :: rest =>
    (a :: rest).take PAGE_SIZE :: splitChunksGo n ((a :: rest).drop PAGE_SIZE)

/-- Model of splitDataIntoChunks (part_000:157-170): cut the data into pieces
of PAGE_SIZE, the last piece possibly shorter. -/
def splitDataIntoChunks (data : List Nat) : List (List Nat) :=
  splitChunksGo data.length data

/-- Pad a chunk with zero bytes up to PAGE_SIZE (part_000:217-220, 234-236,
257-260). -/
def padPage (c : List Nat) : List Nat := c ++ List.replicate (PAGE_SIZE - c.length) 0

/-- Write one physical slot at index i; writing beyond the end of the file
zero-fills the gap (WriteAt semantics). -/
def setSlot (slots : List Slot) (i : Nat) (s : Slot) : List Slot :=
  if i < slots.length then slots.set i s
  else slots ++ List.replicate (i - slots.length) zeroSlot ++ [s]

/-- The chunk loop of WriteTo (part_000:210-248).  Faithful detail: BOTH
branches of the loop body write the chunk at the current page with a header
naming pageID + 1 — the branch for the last chunk differs from the others only
in not advancing the loop variable, so the final chunk's header also names the
(unwritten) following slot rather than the terminal -1. -/
def writeChunks (slots : List Slot) (pageID : Int) : List (List Nat) → List Slot
  | [] => slots
  | c :: rest =>
    writeChunks (setSlot slots pageID.toNat { next := some (pageID + 1), payload := padPage c })
      (pageID + 1) rest

/-- Remove the element at index i from the array backing the deleted-pages
slice, Go's in-place append(s[:i], s[i+1:]...) on a slice of logical length m
whose backing array B keeps its full length: positions i to m-2 receive the
old positions i+1 to m-1 and positions from m-1 on are untouched. -/
def danceRemove (B : List Int) (m i : Nat) : List Int :=
  B.take i ++ (B.drop (i + 1)).take (m - 1 - i) ++ B.drop (m - 1)

/-- The removal loop of WriteTo (part_000:183-188): Go ranges over a snapshot
of the deleted-pages slice (length n0) while the loop body shrinks the live
slice in place, so the iteration keeps reading the mutating backing array B at
the snapshot indices; removing at an index beyond the live length panics with
a slice-bounds error.  The parameter k counts the remaining snapshot
iterations, m is the live length. -/
def delLoop (id : Int) : List Int → Nat → Nat → Nat → Except PErr (List Int × Nat)
  | B, m, _, 0 => .ok (B, m)
  | B, m, i, k + 1 =>
    match B.get? i with
    | none => .ok (B, m)
    | some page =>
      if page == id then
        if i + 1 > m then .error .sliceBounds
        else delLoop id (danceRemove B m i) (m - 1) (i + 1) k
      else delLoop id B m (i + 1) k

/-- The deleted-pages dance at the top of WriteTo (part_000:178-188): append
pageID via DeletePage, then run the snapshot removal loop and keep the live
prefix. -/
def delDance (l : List Int) (id : Int) : Except PErr (List Int) := do
  let B := l ++ [id]
  let (B', m') ← delLoop id B B.length 0 B.length
  .ok (B'.take m')

/-- Model of WriteTo (part_000:173-271): run the deleted-pages dance, then
write the data: data over PAGE_SIZE is split into chunks written at
consecutive slots through writeChunks; data of at most PAGE_SIZE is written at
slot pageID, zero-padded, with the terminal header -1.  A negative pageID
makes the positioned write fail. -/
def WriteTo (pst : PSt) (pageID : Int) (data : List Nat) : Except PErr PSt := do
  let deleted' ← delDance pst.deletedPages pageID
  if pageID < 0 then .error .ioErr
  else if data.length > PAGE_SIZE then
    .ok { slots := writeChunks pst.slots pageID (splitDataIntoChunks data),
          deletedPages := deleted' }
  else
    .ok { slots := setSlot pst.slots pageID.toNat { next := some (-1), payload := padPage data },
          deletedPages := deleted' }

/-- Model of Write (part_000:291-335): pop the LAST deleted page (LIFO) and
overwrite it, or write at the slot count of the file (the empty-file special
case writes page 0, which equals the slot count). -/
def Write (pst : PSt) (data : List Nat) : Except PErr (Int × PSt) :=
  match pst.deletedPages.getLast? with
  | some pageID => do
      let pst' ← WriteTo { slots := pst.slots, deletedPages := pst.deletedPages.dropLast }
        pageID data
      .ok (pageID, pst')
  | none => do
      let pageId : Int := (pst.slots.length : Int)
      let pst' ← WriteTo pst pageId data
      .ok (pageId, pst')

/-- Model of DeletePage (part_000:439-453): append the page to the deleted
pages and persist the list. -/
def DeletePage (pst : PSt) (pageID : Int) : PSt :=
  { slots := pst.slots, deletedPages := pst.deletedPages ++ [pageID] }

end Pager

/-! Concrete instances and helper observations used by the theorems below. -/

/-- Total number of stored values in a node. -/
def totalVals (n : Node) : Nat := (n.Keys.map (fun k => k.V.length)).sum

/-- Codec model for traces whose nodes stay far below every size threshold:
gob encodes the handful of small keys and values of those traces in well under
half a page, so the model sizes them as zero (the thresholds compare with
strictly-greater). -/
def encSizeZero : Node → Nat := fun _ => 0

/-- Codec model for the overflow scenario: each stored value is large, about
200 bytes encoded, so a node exceeds the half-page overflow threshold
(PAGE_SIZE / 2 = 512) as soon as it carries three values, while staying below
the full-page encodeNode limit up to five. -/
def encSizeBulky : Node → Nat := fun n => 200 * totalVals n

/-- Conservative lower bound, in bytes, for gob's type-definition section:
the encoded Node type transmits wire-type definitions for Node, Key and their
slice types with all field names spelled out, well over 64 bytes, before any
value byte; every splice offset arising below is at most 3. -/
def gobTypeSectionAtLeast : Nat := 64

/-- Tree handle with minimum degree 2 and the small-node codec. -/
def btT2 : BT := { T := 2, encSize := encSizeZero, encPrefix := gobTypeSectionAtLeast }

/-- Tree handle with minimum degree 3 and the small-node codec. -/
def btT3 : BT := { T := 3, encSize := encSizeZero, encPrefix := gobTypeSectionAtLeast }

/-- Tree handle with minimum degree 3 and the bulky-value codec. -/
def btOv : BT := { T := 3, encSize := encSizeBulky, encPrefix := gobTypeSectionAtLeast }

/-- Number of key records anywhere in the file that reference page p as their
overflow page. -/
def overflowRefs (st : St) (p : Int) : Nat :=
  ((st.filterMap id).map
    (fun n => (n.Keys.filter (fun k => k.Overflowed && k.OverflowPage == p)).length)).sum

/-- The empty leaf root that getRoot synthesizes on a fresh file
(btree.go:186-191). -/
def initialRoot : Node :=
  { Page := 0, Keys := [], Children := [], Leaf := true,
    Overflow := false, Reuse := false }

/-- Run a list of operations on a fresh file, then Get. -/
def runThenGet (b : BT) (ops : List Op) (k : GoVal) : Except BErr (List GoVal) :=
  runOps b [] 16 ops >>= fun st => Get b st k 16

/-- Run a list of operations on a fresh file, then Range. -/
def runThenRange (b : BT) (ops : List Op) (start end_ : GoVal) :
    Except BErr (List Key) :=
  runOps b [] 16 ops >>= fun st => Range b st start end_ 16

/-- The overflow-reclamation scenario: five values of one key build an
overflow chain over pages 1 and 2, deleting the key marks both pages Reuse,
and two later keys each trigger a fresh overflow and are handed the two stale
pages in scan order. -/
def opsReuse : List Op :=
  [.put (.vint 1) (.vint 100), .put (.vint 1) (.vint 101), .put (.vint 1) (.vint 102),
   .put (.vint 1) (.vint 103), .put (.vint 1) (.vint 104), .del (.vint 1),
   .put (.vint 2) (.vint 200), .put (.vint 2) (.vint 201), .put (.vint 2) (.vint 202),
   .put (.vint 3) (.vint 300), .put (.vint 3) (.vint 301)]

/-- A one-page file whose root leaf holds the single key 1 with value 10. -/
def oneKeyRoot : Node :=
  { Page := 0, Keys := [{ K := .vint 1, V := [.vint 10], Overflowed := false, OverflowPage := 0 }],
    Children := [], Leaf := true, Overflow := false, Reuse := false }

/-- The file consisting of the one-key root alone. -/
def oneKeyFile : St := [some oneKeyRoot]

/-- The delete-scramble scenario (T = 2): six inserts build the tree
root [2,4] with leaf children [1], [3], [5,6]; delete(6) trims the last leaf;
delete(4) enters the merge branch, whose splice discards page 0 and shifts the
file while every stored page id keeps referring to the old slots; the tree is
now scrambled (the root's left child id resolves to the old middle leaf).
delete(2) then replaces the root separator by the head key 3 of the shifted
right child; delete(3) finds key 3 at the root, computes the successor of the
scrambled right child — key 3 itself — rewrites the root unchanged and
reports success. -/
def opsScramble : List Op :=
  [.put (.vint 1) (.vint 10), .put (.vint 2) (.vint 20), .put (.vint 3) (.vint 30),
   .put (.vint 4) (.vint 40), .put (.vint 5) (.vint 50), .put (.vint 6) (.vint 60),
   .del (.vint 6), .del (.vint 4), .del (.vint 2), .del (.vint 3)]

/-- Key record with a single value, abbreviating the states of the
delete-scramble trace. -/
def c3k (n v : Int) : Key :=
  { K := .vint n, V := [.vint v], Overflowed := false, OverflowPage := 0 }

/-- Leaf node abbreviation for the states of the delete-scramble trace. -/
def c3leaf (p : Int) (ks : List Key) : Node :=
  { Page := p, Keys := ks, Children := [], Leaf := true, Overflow := false, Reuse := false }

/-- Internal node abbreviation for the states of the delete-scramble trace. -/
def c3node (p : Int) (ks : List Key) (ch : List Int) : Node :=
  { Page := p, Keys := ks, Children := ch, Leaf := false, Overflow := false, Reuse := false }

/-- File state after put(1,10) on a fresh file (delete-scramble trace). -/
def c3s1 : St := [some (c3leaf 0 [c3k 1 10])]

/-- State after the second put of the delete-scramble trace. -/
def c3s2 : St := [some (c3leaf 0 [c3k 1 10, c3k 2 20])]

/-- State after the third put of the delete-scramble trace. -/
def c3s3 : St := [some (c3leaf 0 [c3k 1 10, c3k 2 20, c3k 3 30])]

/-- State after the fourth put: the root has split, promoting key 2. -/
def c3s4 : St :=
  [some (c3node 0 [c3k 2 20] [1, 2]), some (c3leaf 1 [c3k 1 10]),
   some (c3leaf 2 [c3k 3 30, c3k 4 40])]

/-- State after the fifth put of the delete-scramble trace. -/
def c3s5 : St :=
  [some (c3node 0 [c3k 2 20] [1, 2]), some (c3leaf 1 [c3k 1 10]),
   some (c3leaf 2 [c3k 3 30, c3k 4 40, c3k 5 50])]

/-- State after the sixth put: the middle leaf has split, promoting key 4. -/
def c3s6 : St :=
  [some (c3node 0 [c3k 2 20, c3k 4 40] [1, 2, 3]), some (c3leaf 1 [c3k 1 10]),
   some (c3leaf 2 [c3k 3 30]), some (c3leaf 3 [c3k 5 50, c3k 6 60])]

/-- State after delete(6): the last leaf is trimmed in place. -/
def c3s7 : St :=
  [some (c3node 0 [c3k 2 20, c3k 4 40] [1, 2, 3]), some (c3leaf 1 [c3k 1 10]),
   some (c3leaf 2 [c3k 3 30]), some (c3leaf 3 [c3k 5 50])]

/-- State after delete(4): the merge branch's misaligned splice has discarded
slot 0 and shifted the file by one page, then the merged node (still recorded
as page 2) and the shrunken root were written at the slots their UNSHIFTED page
ids now denote, leaving two distinct nodes that both call themselves page 2 and
a root whose child ids [1, 2] resolve to them. -/
def c3s8 : St :=
  [some (c3node 0 [c3k 2 20] [1, 2]), some (c3leaf 2 [c3k 3 30]),
   some (c3leaf 2 [c3k 3 30, c3k 5 50])]

/-- State after delete(2): the root separator was replaced by key 3, the head
key of the scrambled right child.  delete(3) leaves this state unchanged. -/
def c3s9 : St :=
  [some (c3node 0 [c3k 3 30] [1, 2]), some (c3leaf 2 [c3k 3 30]),
   some (c3leaf 2 [c3k 3 30, c3k 5 50])]

end Btree

/-!
Theorems.  Each claim of the specification is settled below; helper lemmas
precede the claim theorems that use them.
-/

namespace Btree

/-- C1: evaluation of the claim "put(k,v) followed by get(k) returns a value
list whose last element is v" at a concrete input on which it fails.  With
T = 2, after putting keys 1, 2, 3, 4 the root split has promoted key 2 into
the internal root; a further put(2, 99) descends past the internal occurrence
of 2 (insertNonFull tests equality only at leaves) and inserts a duplicate key
record in a leaf, while get(2) stops at the internal occurrence and returns
only [20]: the appended value 99 is not returned at all, so the returned list
neither ends with nor contains 99. -/
theorem c1_put_get_lost_value :
    runThenGet btT2 [.put (.vint 1) (.vint 10), .put (.vint 2) (.vint 20),
      .put (.vint 3) (.vint 30), .put (.vint 4) (.vint 40),
      .put (.vint 2) (.vint 99)] (.vint 2) = .ok [.vint 20]
    ∧ GoVal.vint 99 ∉ [GoVal.vint 20]
    ∧ [GoVal.vint 20].getLast? ≠ some (GoVal.vint 99) :=
  ⟨by rfl, by decide, by decide⟩

/-- C2: evaluation of the claim "put(k,v) then remove(k,v) then get(k) yields
a list without v" at a concrete input on which it fails.  Remove finds the
value inline in the root, deletes it only from the in-memory copy of the node
and returns nil without writing the page (deleteValueFromNode's inline branch
has no writePage), so the following Get re-reads the unchanged page from the
file and still returns [10]. -/
theorem c2_remove_not_persisted :
    runThenGet btT3 [.put (.vint 1) (.vint 10), .rem (.vint 1) (.vint 10)] (.vint 1)
      = .ok [.vint 10]
    ∧ GoVal.vint 10 ∈ [GoVal.vint 10] :=
  ⟨by rfl, by decide⟩

/-- Bind of Except on an ok value reduces to the continuation. -/
theorem okBind {e a b : Type} (x : a) (f : a → Except e b) :
    (Except.ok x >>= f) = f x := rfl

/-- One unfolding of runOps on a leading put. -/
theorem runOpsPut (b : BT) (st : St) (fuel : Nat) (k v : GoVal) (rest : List Op) :
    runOps b st fuel (.put k v :: rest) =
      Put b st k v fuel >>= fun s => runOps b s fuel rest := rfl

/-- One unfolding of runOps on a leading delete. -/
theorem runOpsDel (b : BT) (st : St) (fuel : Nat) (k : GoVal) (rest : List Op) :
    runOps b st fuel (.del k :: rest) =
      Delete b st k fuel >>= fun s => runOps b s fuel rest := rfl

/-- Step 1 of the delete-scramble trace. -/
theorem c3h1 : Put btT2 [] (.vint 1) (.vint 10) 16 = .ok c3s1 := by rfl

/-- Step 2 of the delete-scramble trace. -/
theorem c3h2 : Put btT2 c3s1 (.vint 2) (.vint 20) 16 = .ok c3s2 := by rfl

/-- Step 3 of the delete-scramble trace. -/
theorem c3h3 : Put btT2 c3s2 (.vint 3) (.vint 30) 16 = .ok c3s3 := by rfl

/-- Step 4 of the delete-scramble trace: root split. -/
theorem c3h4 : Put btT2 c3s3 (.vint 4) (.vint 40) 16 = .ok c3s4 := by rfl

/-- Step 5 of the delete-scramble trace. -/
theorem c3h5 : Put btT2 c3s4 (.vint 5) (.vint 50) 16 = .ok c3s5 := by rfl

/-- Step 6 of the delete-scramble trace: middle leaf split. -/
theorem c3h6 : Put btT2 c3s5 (.vint 6) (.vint 60) 16 = .ok c3s6 := by rfl

/-- Step 7 of the delete-scramble trace: delete(6) trims the last leaf. -/
theorem c3h7 : Delete btT2 c3s6 (.vint 6) 16 = .ok c3s7 := by rfl

/-- Step 8 of the delete-scramble trace: delete(4)'s merge branch splices the
file (deletePageAndUpdate with the page number as byte offset), scrambling the
page ids. -/
theorem c3h8 : Delete btT2 c3s7 (.vint 4) 16 = .ok c3s8 := by rfl

/-- Step 9 of the delete-scramble trace: delete(2) replaces the root separator
by key 3. -/
theorem c3h9 : Delete btT2 c3s8 (.vint 2) 16 = .ok c3s9 := by rfl

/-- Step 10 of the delete-scramble trace: delete(3) returns successfully and
leaves the file unchanged, key 3 still at the root. -/
theorem c3h10 : Delete btT2 c3s9 (.vint 3) 16 = .ok c3s9 := by rfl

/-- In the final state of the delete-scramble trace, get(3) finds key 3 at the
root and returns its value. -/
theorem c3hg : Get btT2 c3s9 (.vint 3) 16 = .ok [.vint 30] := by rfl

/-- The delete-scramble trace, chained from its ten steps. -/
theorem c3run : runOps btT2 [] 16 opsScramble = .ok c3s9 := by
  simp only [opsScramble, runOpsPut, runOpsDel, okBind,
    c3h1, c3h2, c3h3, c3h4, c3h5, c3h6, c3h7, c3h8, c3h9, c3h10]
  rfl

/-- C3: evaluation of the claim "delete(k) followed by get(k) yields an empty
value list" at a concrete input on which it fails.  Delete(4)'s merge branch
calls deletePageAndUpdate(z.Page, PAGE_SIZE), passing the page NUMBER 3 where
deletePage expects a BYTE offset; the resulting splice (see deletePage)
discards page 0 and shifts the file while all stored page ids keep referring
to the old slots.  Delete(4) and Delete(2) still happen to satisfy the claim
at their own keys, because the nodes on the deleted key's own search path are
rewritten after the shift; but the tree is left scrambled, and Delete(3) then
finds key 3 at the root, takes the successor branch, obtains as successor of
the scrambled right child KEY 3 ITSELF, rewrites the root unchanged and
returns nil — after which Get(3) returns the non-empty list [30]. -/
theorem c3_delete_leaves_key_reachable :
    runThenGet btT2 opsScramble (.vint 3) = .ok [.vint 30]
    ∧ ([GoVal.vint 30] : List GoVal) ≠ [] := by
  refine ⟨?_, by decide⟩
  rw [runThenGet, c3run, okBind, c3hg]

/-- C4: evaluation of the claim "each overflow page is referenced by exactly
one primary key or exactly one predecessor overflow page" at a reachable state
where it fails.  Key 1 builds the chain page1 -> page2; delete(1) marks both
pages Reuse = true but leaves their keys and links intact (despite the
comment of getAvailableOverflowNode announcing a cleared node).  Key 2's
overflow is handed stale page 1, whose key still links to page 2; key 3's
overflow is then handed stale page 2 itself.  In the resulting state page 2 is
referenced BOTH by the stale link of page 1 (now key 2's chain) and by key 3's
overflow field: two referrers instead of exactly one. -/
theorem c4_overflow_double_reference :
    (runOps btOv [] 16 opsReuse).map (fun st => overflowRefs st 2) = .ok 2
    ∧ (2 : Nat) ≠ 1 :=
  ⟨by rfl, by decide⟩

/-- C8: evaluation of the claim "range(start, end) returns exactly the keys k
with start <= k <= end" at a concrete input on which it fails.  The tree holds
the byte-slice key 98 and the bounds are the byte slices 97 and 99: the key is
strictly inside the interval under the byte order and Get finds it, yet Range
returns no keys at all, because the loop condition of rangeKeys uses
lessThanEq, whose switch has no case for byte slices and therefore always
answers false on them. -/
theorem c8_range_bytes_missing :
    runThenRange btT3 [.put (.vbytes [98]) (.vint 0)] (.vbytes [97]) (.vbytes [99])
      = .ok []
    ∧ runThenGet btT3 [.put (.vbytes [98]) (.vint 0)] (.vbytes [98]) = .ok [.vint 0]
    ∧ listNatLt [97] [98] = true
    ∧ listNatLt [98] [99] = true
    ∧ lessThanEq (.vbytes [98]) (.vbytes [99]) = false :=
  ⟨by rfl, by rfl, by rfl, by rfl, by rfl⟩

/-- Helper for C9: getPage can fail only with an I/O, EOF or decode error,
never with the key-not-found error. -/
theorem getPage_no_keyNotFound (st : St) (p : Int) :
    getPage st p ≠ .error .keyNotFound := by
  unfold getPage
  split
  · simp
  · split <;> simp

/-- Helper for C9: when the search traversal (findNodeForKey) reports that the
key is absent, deleteKey follows the same child path, finds nothing, writes
nothing, and returns the file unchanged. -/
theorem deleteKey_of_notFound (b : BT) : ∀ (fuel : Nat) (st : St) (x : Node) (k : GoVal),
    findNodeForKey st x k fuel = .error .keyNotFound →
    deleteKey b st k x fuel = .ok (st, x) := by
  intro fuel
  induction fuel with
  | zero => intro st x k h; simp [findNodeForKey] at h
  | succ f ih =>
    intro st x k h
    unfold findNodeForKey at h
    unfold deleteKey
    by_cases hfound : (match x.Keys.get? (searchIdx x.Keys k) with
        | some kr => equal k kr.K
        | none => false) = true
    · rw [if_pos hfound] at h
      simp at h
    · rw [if_neg hfound] at h
      rw [if_neg hfound]
      by_cases hleaf : (!x.Leaf) = true
      · rw [if_pos hleaf] at h
        rw [if_pos hleaf]
        cases hc : x.Children.get? (searchIdx x.Keys k) with
        | none => rw [hc] at h; simp at h
        | some cp =>
          rw [hc] at h
          have h1 : (getPage st cp >>= fun child => findNodeForKey st child k f)
              = Except.error BErr.keyNotFound := h
          show (getPage st cp >>= fun child =>
              deleteKey b st k child f >>= fun r => Except.ok (r.1, x))
            = Except.ok (st, x)
          cases hg : getPage st cp with
          | error e =>
            rw [hg] at h1
            have h2 : (Except.error e : Except BErr (Node × Nat))
                = Except.error BErr.keyNotFound := h1
            have h3 : e = BErr.keyNotFound := by
              cases h2
              rfl
            exact absurd (hg.trans (by rw [h3])) (getPage_no_keyNotFound st cp)
          | ok child =>
            rw [hg] at h1
            have h2 : findNodeForKey st child k f = Except.error BErr.keyNotFound := h1
            show (deleteKey b st k child f >>= fun r => Except.ok (r.1, x))
              = Except.ok (st, x)
            rw [ih st child k h2]
            exact rfl
      · rw [if_neg hleaf] at h
        rw [if_neg hleaf]

/-- C9: for every key k not present in the tree (the search traversal reports
key not found), Delete returns no error and leaves the persisted file
unchanged.  The hypothesis on head? says the root page exists, i.e. the file
has been initialized; on a never-written file the only effect of Delete would
be the lazy materialization of the empty root by getRoot. -/
theorem c9_delete_missing_noop (b : BT) (st : St) (root : Node) (k : GoVal) (fuel : Nat)
    (hroot : st.head? = some (some root))
    (hnf : findNodeForKey st root k fuel = .error .keyNotFound) :
    Delete b st k fuel = .ok st := by
  have hgr : getRoot b st = .ok (root, st) := by
    unfold getRoot getPage
    cases st with
    | nil => simp at hroot
    | cons a rest =>
      have ha : a = some root := by simpa using hroot
      subst ha
      rfl
  unfold Delete
  rw [hgr]
  show (deleteKey b st k root fuel >>= fun r => Except.ok r.1) = Except.ok st
  rw [deleteKey_of_notFound b fuel st root k hnf]
  exact rfl

/-- Witness for C9 at a concrete input: deleting the absent key 2 from a file
holding only key 1 succeeds and leaves the file untouched. -/
theorem c9_witness :
    findNodeForKey oneKeyFile oneKeyRoot (.vint 2) 4 = .error .keyNotFound
    ∧ Delete btT3 oneKeyFile (.vint 2) 4 = .ok oneKeyFile :=
  ⟨by rfl, c9_delete_missing_noop btT3 oneKeyFile oneKeyRoot (.vint 2) 4 (by rfl) (by rfl)⟩

/-- C10: for arguments of different dynamic types, and for any arguments of an
unsupported dynamic type (vother, covering every type outside the comparator
switches), lessThan, greaterThan and equal all return false, so such keys are
mutually incomparable in every tree operation built on these comparators. -/
theorem c10_comparators_incomparable :
    (∀ a b : GoVal, sameTypeB a b = false →
      lessThan a b = false ∧ greaterThan a b = false ∧ equal a b = false)
    ∧ (∀ s t : String,
      lessThan (.vother s) (.vother t) = false
      ∧ greaterThan (.vother s) (.vother t) = false
      ∧ equal (.vother s) (.vother t) = false) := by
  constructor
  · intro a b h
    refine ⟨?_, ?_, ?_⟩ <;> simp [lessThan, greaterThan, equal, h]
  · intro s t
    refine ⟨?_, ?_, ?_⟩ <;> simp [lessThan, greaterThan, equal, sameTypeB]

/-- Witness for C10 at a concrete input: an int and a string compare neither
less, greater, nor equal. -/
theorem c10_witness :
    sameTypeB (.vint 0) (.vstr "") = false
    ∧ lessThan (.vint 0) (.vstr "") = false
    ∧ greaterThan (.vint 0) (.vstr "") = false
    ∧ equal (.vint 0) (.vstr "") = false :=
  ⟨by rfl, (c10_comparators_incomparable.1 _ _ (by rfl)).1,
   (c10_comparators_incomparable.1 _ _ (by rfl)).2.1,
   (c10_comparators_incomparable.1 _ _ (by rfl)).2.2⟩

/-- Counterexample to C6 as stated: opening a fresh (empty) tree file with a
valid degree succeeds, yet page 0 holds no node afterwards — Open never reads
or writes page 0, so the root does not exist at logical page 0 when open
returns. -/
theorem c6_counterexample :
    Open 3 ([] : St) = .ok ([] : St) ∧ getPage ([] : St) 0 = .error .eof :=
  ⟨rfl, rfl⟩

/-- C6 (amended): open rejects a degree below 2 and otherwise returns the file
untouched; the empty leaf root is synthesized and written to page 0 by the
FIRST ROOT ACCESS (getRoot), when reading page 0 fails with EOF — not by open
itself.  After that first access the root exists at logical page 0. -/
theorem c6_open_lazy_root :
    (∀ (t : Int) (st : St), t < 2 → Open t st = .error .degreeTooSmall)
    ∧ (∀ (t : Int) (st : St), 2 ≤ t → Open t st = .ok st)
    ∧ (∀ b : BT, b.encSize initialRoot ≤ PAGE_SIZE →
        getRoot b ([] : St) = .ok (initialRoot, [some initialRoot]))
    ∧ getPage [some initialRoot] 0 = .ok initialRoot := by
  refine ⟨?_, ?_, ?_, rfl⟩
  · intro t st h
    simp [Open, h]
  · intro t st h
    rw [Open, if_neg (by omega)]
  · intro b h
    have hw : writePage b [] initialRoot = .ok [some initialRoot] := by
      unfold writePage
      rw [if_neg (by omega : ¬ b.encSize initialRoot > PAGE_SIZE)]
      rfl
    unfold getRoot
    show (writePage b [] initialRoot >>= fun st' => Except.ok (initialRoot, st'))
      = .ok (initialRoot, [some initialRoot])
    rw [hw]
    exact rfl

/-- Witness for C6 at concrete inputs: degree 1 is rejected, degree 3 is
accepted, and the first root access on an empty file writes the empty leaf
root to page 0. -/
theorem c6_witness :
    Open 1 ([] : St) = .error .degreeTooSmall
    ∧ Open 3 ([some initialRoot] : St) = .ok [some initialRoot]
    ∧ getRoot btT3 ([] : St) = .ok (initialRoot, [some initialRoot]) :=
  ⟨c6_open_lazy_root.1 1 [] (by decide), c6_open_lazy_root.2.1 3 _ (by decide),
   c6_open_lazy_root.2.2.1 btT3 (by decide)⟩

end Btree

namespace Btree.Pager

/-- Helper: the length of the file after writing slot i. -/
theorem length_setSlot (slots : List Slot) (i : Nat) (s : Slot) :
    (setSlot slots i s).length = max slots.length (i + 1) := by
  unfold setSlot
  split
  · simp; omega
  · simp; omega

/-- Helper: reading back the slot just written. -/
theorem get_setSlot_self (slots : List Slot) (i : Nat) (s : Slot) :
    (setSlot slots i s).get? i = some s := by
  unfold setSlot
  split
  · exact List.get?_set_eq_of_lt s (by assumption)
  · rename_i h
    rw [List.append_assoc]
    have hlen : i = slots.length + (List.replicate (i - slots.length) zeroSlot).length := by
      simp; omega
    rw [hlen, List.get?_append_right (by omega)]
    simp

/-- Helper: writing slot i leaves every existing slot below it unchanged. -/
theorem get_setSlot_lt (slots : List Slot) (i j : Nat) (s : Slot)
    (hij : j ≠ i) (hj : j < slots.length) :
    (setSlot slots i s).get? j = slots.get? j := by
  unfold setSlot
  split
  · exact List.get?_set_ne s slots (fun h => hij h.symm)
  · rw [List.append_assoc, List.get?_append hj]

/-- Helper for the deleted-pages dance: when the id does not already occur in
the list, the snapshot loop of WriteTo removes exactly the occurrence that
DeletePage just appended, without panicking. -/
theorem delLoop_run (l : List Int) (id : Int) (h : id ∉ l) :
    ∀ (k i : Nat), i + k = l.length + 1 → i ≤ l.length →
      delLoop id (l ++ [id]) (l.length + 1) i k = .ok (l ++ [id], l.length) := by
  intro k
  induction k with
  | zero => intro i hk hi; omega
  | succ k ih =>
    intro i hk hi
    rcases Nat.lt_or_ge i l.length with hlt | hge
    · -- a prefix element, not equal to id, is skipped
      have hget : (l ++ [id]).get? i = l.get? i := List.get?_append hlt
      rcases hv : l.get? i with _ | v
      · have := List.get?_eq_none.mp hv; omega
      · have hvmem : v ∈ l := List.get?_mem hv
        have hvne : (v == id) = false := beq_eq_false_iff_ne.mpr (fun he => h (he ▸ hvmem))
        unfold delLoop
        rw [hget, hv]
        simp only [hvne, Bool.false_eq_true, if_false]
        exact ih (i + 1) (by omega) (by omega)
    · -- i = l.length: the freshly appended id is found and removed in place
      have hieq : i = l.length := by omega
      subst hieq
      have hk0 : k = 0 := by omega
      subst hk0
      have hget : (l ++ [id]).get? l.length = some id := List.get?_concat_length l id
      have hd : danceRemove (l ++ [id]) (l.length + 1) l.length = l ++ [id] := by
        unfold danceRemove
        have h0 : l.length + 1 - 1 - l.length = 0 := by omega
        have h1 : l.length + 1 - 1 = l.length := by omega
        rw [h0, h1, List.take_left, List.drop_left]
        simp
      unfold delLoop
      rw [hget]
      simp only [beq_self_eq_true, if_true]
      have hngt : ¬ (l.length + 1 > l.length + 1) := by omega
      rw [if_neg hngt, hd]
      rfl

/-- Helper: net effect of the deleted-pages dance of WriteTo when the written
id is not already on the free list. -/
theorem delDance_not_mem (l : List Int) (id : Int) (h : id ∉ l) :
    delDance l id = .ok l := by
  have hlen : (l ++ [id]).length = l.length + 1 := by simp
  simp only [delDance, hlen]
  rw [delLoop_run l id h (l.length + 1) 0 (by omega) (by omega)]
  show Except.ok ((l ++ [id]).take l.length) = Except.ok l
  rw [List.take_left]

/-- Helper: the chunk loop never touches slots below the starting page. -/
theorem writeChunks_preserve : ∀ (chunks : List (List Nat)) (slots : List Slot)
    (pid : Int) (j : Nat), 0 ≤ pid → j < pid.toNat → j < slots.length →
    (writeChunks slots pid chunks).get? j = slots.get? j := by
  intro chunks
  induction chunks with
  | nil => intro slots pid j _ _ _; rfl
  | cons c rest ih =>
    intro slots pid j hpid hj hjl
    unfold writeChunks
    rw [ih (setSlot slots pid.toNat { next := some (pid + 1), payload := padPage c })
        (pid + 1) j (by omega) (by omega)
        (by rw [length_setSlot]; exact lt_of_lt_of_le hjl (Nat.le_max_left _ _))]
    exact get_setSlot_lt slots pid.toNat j _ (by omega) hjl

/-- Helper: after the chunk loop, chunk j sits at slot pid + j with a header
naming slot pid + j + 1 — for EVERY chunk, the last one included. -/
theorem writeChunks_get : ∀ (chunks : List (List Nat)) (slots : List Slot)
    (pid : Int) (j : Nat), 0 ≤ pid → j < chunks.length →
    (writeChunks slots pid chunks).get? (pid.toNat + j)
      = some { next := some (pid + j + 1), payload := padPage (chunks.getD j []) } := by
  intro chunks
  induction chunks with
  | nil => intro slots pid j _ hj; simp at hj
  | cons c rest ih =>
    intro slots pid j hpid hj
    unfold writeChunks
    match j with
    | 0 =>
      rw [writeChunks_preserve rest _ (pid + 1) (pid.toNat + 0) (by omega) (by omega)
          (by rw [length_setSlot]; omega)]
      simp only [Nat.add_zero]
      rw [get_setSlot_self]
      simp
    | j' + 1 =>
      have hidx : pid.toNat + (j' + 1) = (pid + 1).toNat + j' := by omega
      rw [hidx, ih _ (pid + 1) j' (by omega) (by simpa using hj)]
      simp
      omega

/-- Helper: WriteTo on single-page data writes one slot with the terminal
header -1 and a zero-padded payload. -/
theorem writeTo_small (pst : PSt) (id : Int) (data : List Nat) (hid : 0 ≤ id)
    (hnd : id ∉ pst.deletedPages) (hlen : data.length ≤ PAGE_SIZE) :
    WriteTo pst id data = .ok (PSt.mk
      (setSlot pst.slots id.toNat (Slot.mk (some (-1)) (padPage data)))
      pst.deletedPages) := by
  unfold WriteTo
  rw [delDance_not_mem pst.deletedPages id hnd]
  have h1 : ¬ (id < 0) := by omega
  have h2 : ¬ (data.length > PAGE_SIZE) := by omega
  show (if id < 0 then Except.error PErr.ioErr else _) = _
  rw [if_neg h1, if_neg h2]

/-- Helper: WriteTo on oversized data runs the chunk loop. -/
theorem writeTo_large (pst : PSt) (id : Int) (data : List Nat) (hid : 0 ≤ id)
    (hnd : id ∉ pst.deletedPages) (hlen : PAGE_SIZE < data.length) :
    WriteTo pst id data = .ok (PSt.mk
      (writeChunks pst.slots id (splitDataIntoChunks data)) pst.deletedPages) := by
  unfold WriteTo
  rw [delDance_not_mem pst.deletedPages id hnd]
  have h1 : ¬ (id < 0) := by omega
  show (if id < 0 then Except.error PErr.ioErr else _) = _
  rw [if_neg h1, if_pos (by omega : data.length > PAGE_SIZE)]

/-- C5 (amended): write_to(id, data) splits oversized data into chunks of
PAGE_SIZE and writes chunk j at slot id + j with a header naming slot
id + j + 1 — INCLUDING the last chunk, whose header therefore also names the
next (unwritten) slot rather than the terminal -1; the final chunk is padded
with zero bytes to PAGE_SIZE.  Only data that fits in a single page is written
with the terminal header -1. -/
theorem c5_writeTo_chunked (pst : PSt) (id : Int) (data : List Nat)
    (hid : 0 ≤ id) (hnd : id ∉ pst.deletedPages) :
    (data.length ≤ PAGE_SIZE →
      WriteTo pst id data = .ok (PSt.mk
        (setSlot pst.slots id.toNat (Slot.mk (some (-1)) (padPage data))) pst.deletedPages))
    ∧ (PAGE_SIZE < data.length →
      WriteTo pst id data = .ok (PSt.mk
        (writeChunks pst.slots id (splitDataIntoChunks data)) pst.deletedPages)
      ∧ ∀ j, j < (splitDataIntoChunks data).length →
          (writeChunks pst.slots id (splitDataIntoChunks data)).get? (id.toNat + j)
            = some (Slot.mk (some (id + j + 1)) (padPage ((splitDataIntoChunks data).getD j [])))) :=
  ⟨fun h => writeTo_small pst id data hid hnd h,
   fun h => ⟨writeTo_large pst id data hid hnd h,
     fun j hj => writeChunks_get _ pst.slots id j hid hj⟩⟩

set_option maxRecDepth 40000 in
/-- Counterexample to C5 as stated: writing 1025 bytes at page 0 produces two
slots whose headers are 1 and 2 — the last chunk's header is 2, the id of the
next slot, not the terminal -1 the claim requires. -/
theorem c5_counterexample :
    (WriteTo (PSt.mk [] []) 0 (List.replicate 1025 7)).map (fun p => p.slots.map Slot.next)
      = .ok [some 1, some 2] ∧ some (2 : Int) ≠ some (-1 : Int) :=
  ⟨rfl, by decide⟩

/-- Witness for C5 at a concrete input: a three-byte write at page 0 produces
one slot with the terminal header and zero padding. -/
theorem c5_witness :
    WriteTo (PSt.mk [] []) 0 [1, 2, 3] = .ok (PSt.mk
      (setSlot [] (0 : Int).toNat (Slot.mk (some (-1)) (padPage [1, 2, 3]))) []) :=
  (c5_writeTo_chunked (PSt.mk [] []) 0 [1, 2, 3] (by decide) (by decide)).1 (by decide)

/-- Helper: Write with a non-empty free list pops the last id and delegates to
WriteTo at that id. -/
theorem write_pop (slots : List Slot) (dp : List Int) (id : Int) (data : List Nat) :
    Write (PSt.mk slots (dp ++ [id])) data
      = (WriteTo (PSt.mk slots dp) id data).map (fun p => (id, p)) := by
  unfold Write
  simp only [List.getLast?_concat, List.dropLast_concat]
  cases h : WriteTo (PSt.mk slots dp) id data <;> rfl

/-- C7: write(data) returns the id of the page actually written: with a
non-empty free list it pops the LAST id (LIFO) and overwrites that page via
write_to; with an empty free list it appends a new logical page at the slot
count of the file (the empty-file case included); hence DeletePage followed by
the next Write reuses the freed id, and — when the id is fresh on the free
list and the data fits one page — the write lands at exactly that slot with
the terminal header. -/
theorem c7_write_spec :
    (∀ (pst : PSt) (data : List Nat) (l : List Int) (id : Int),
      pst.deletedPages = l ++ [id] →
      Write pst data = (WriteTo (PSt.mk pst.slots l) id data).map (fun p => (id, p)))
    ∧ (∀ (pst : PSt) (data : List Nat), pst.deletedPages = [] →
      Write pst data = (WriteTo pst ((pst.slots.length : Int)) data).map
        (fun p => (((pst.slots.length : Int)), p)))
    ∧ (∀ (pst : PSt) (id : Int) (data : List Nat),
      Write (DeletePage pst id) data = (WriteTo pst id data).map (fun p => (id, p)))
    ∧ (∀ (pst : PSt) (id : Int) (data : List Nat), 0 ≤ id → id ∉ pst.deletedPages →
      data.length ≤ PAGE_SIZE →
      Write (DeletePage pst id) data = .ok (id, PSt.mk
        (setSlot pst.slots id.toNat (Slot.mk (some (-1)) (padPage data))) pst.deletedPages)) := by
  refine ⟨?_, ?_, ?_, ?_⟩
  · intro pst data l id h
    cases pst with
    | mk slots dp =>
      simp only at h
      subst h
      exact write_pop slots l id data
  · intro pst data h
    cases pst with
    | mk slots dp =>
      simp only at h
      subst h
      show (WriteTo (PSt.mk slots []) ((slots.length : Int)) data >>= fun pst' =>
          Except.ok (((slots.length : Int)), pst')) =
        (WriteTo (PSt.mk slots []) ((slots.length : Int)) data).map
          (fun p => (((slots.length : Int)), p))
      cases hw : WriteTo (PSt.mk slots []) ((slots.length : Int)) data <;> rfl
  · intro pst id data
    cases pst with
    | mk slots dp => exact write_pop slots dp id data
  · intro pst id data h1 h2 h3
    cases pst with
    | mk slots dp =>
      have hdel : DeletePage (PSt.mk slots dp) id = PSt.mk slots (dp ++ [id]) := rfl
      rw [hdel, write_pop slots dp id data,
        writeTo_small (PSt.mk slots dp) id data h1 h2 h3]
      rfl

/-- Witness for C7 at a concrete input: deleting page 0 and writing next
returns id 0 and overwrites slot 0. -/
theorem c7_witness :
    Write (DeletePage (PSt.mk [] []) 0) [5] = .ok (0, PSt.mk
      (setSlot [] (0 : Int).toNat (Slot.mk (some (-1)) (padPage [5]))) []) :=
  c7_write_spec.2.2.2 (PSt.mk [] []) 0 [5] (by decide) (by decide) (by decide)

end Btree.Pager
